import Mathlib

/-!
Verification development for the blog-post generation pipeline of
AutoBlogByGoogleAI (src/services/geminiService.ts and src/unnamed/part_000).

The TypeScript source is shallowly embedded: JavaScript strings become Lean
`String`s (operations are defined over the underlying `List Char`), the
regular expressions used by the source are embedded as the deterministic
scanning functions they denote on their concrete patterns, and the one
fallible step (the model invocation) is an `Except String String` input.
All definitions are executable; no `partial`, no well-founded recursion, so
concrete instances evaluate by `decide`.
-/

namespace AutoBlog

/-- The set of characters JavaScript treats as whitespace for `String.prototype.trim`
and for the `\s` regex class (WhiteSpace plus LineTerminator productions). -/
def isJsWhitespace (c : Char) : Bool :=
  c = ' ' || c = '\t' || c = '\n' || c = '\r' || c = Char.ofNat 0x0b || c = Char.ofNat 0x0c ||
  c = Char.ofNat 0xa0 || c = Char.ofNat 0x1680 ||
  (Char.ofNat 0x2000 ≤ c && c ≤ Char.ofNat 0x200a) ||
  c = Char.ofNat 0x2028 || c = Char.ofNat 0x2029 || c = Char.ofNat 0x202f ||
  c = Char.ofNat 0x205f || c = Char.ofNat 0x3000 || c = Char.ofNat 0xfeff

/-- JavaScript line terminators, the characters `.` does not match in a regex
without the `s` flag. -/
def isJsLineTerminator (c : Char) : Bool :=
  c = '\n' || c = '\r' || c = Char.ofNat 0x2028 || c = Char.ofNat 0x2029

/-- `String.prototype.trim` on the underlying character list. -/
def jsTrimData (s : List Char) : List Char :=
  ((s.dropWhile isJsWhitespace).reverse.dropWhile isJsWhitespace).reverse

/-- JavaScript `s.trim()`. -/
def jsTrim (s : String) : String := String.mk (jsTrimData s.data)

/-- JavaScript `s.split(sep)` for a single-character separator, on character
lists.  `split` always yields one more fragment than there are separator
occurrences, so the result is never empty. -/
def splitCharData (sep : Char) : List Char → List (List Char)
  | [] => [[]]
  | c :: rest =>
    match splitCharData sep rest with
    | [] => [[]]
    | h :: t => if c = sep then [] :: h :: t else (c :: h) :: t

/-- JavaScript `s.split(',')`. -/
def jsSplitComma (s : String) : List String := (splitCharData ',' s.data).map String.mk

/-- JavaScript `s.split('\n')`. -/
def jsSplitNewline (s : String) : List String := (splitCharData '\n' s.data).map String.mk

/-- First occurrence scan for the lazy capture `OPEN([\s\S]*?)CLOSE` at the
current position: if `cl` begins here the capture is empty, otherwise extend
by one character.  Mirrors how the lazy quantifier takes the shortest text up
to the first occurrence of the closing literal. -/
def captureBefore (cl : List Char) : List Char → Option (List Char)
  | [] => if cl = [] then some [] else none
  | c :: rest =>
    if cl.isPrefixOf (c :: rest) then some []
    else (captureBefore cl rest).map (fun t => c :: t)

/-- Matching `OPEN([\s\S]*?)CLOSE` anchored at the start of `s`: the opening
literal must begin here and the capture runs to the first closing literal. -/
def captureAt (op cl : List Char) (s : List Char) : Option (List Char) :=
  if op.isPrefixOf s then captureBefore cl (s.drop op.length) else none

/-- JavaScript `s.match(/OPEN([\s\S]*?)CLOSE/)`: try every start position from
the left, returning the first capture.  For the marker literals used by the
source the per-position match is deterministic, so this is exactly the regex
engine's leftmost-match semantics. -/
def matchBetweenData (op cl : List Char) : List Char → Option (List Char)
  | [] => captureAt op cl []
  | c :: rest =>
    match captureAt op cl (c :: rest) with
    | some r => some r
    | none => matchBetweenData op cl rest

/-- The capture of `rawText.match(/[OPEN]([\s\S]*?)[/CLOSE]/)` as a `String`. -/
def jsMatchBetween (op cl s : String) : Option String :=
  (matchBetweenData op.data cl.data s.data).map String.mk

/-- The suffix left after the first occurrence of `cl` (the occurrence itself
consumed), scanning left to right. -/
def afterSub (cl : List Char) : List Char → Option (List Char)
  | [] => if cl = [] then some [] else none
  | c :: rest =>
    if cl.isPrefixOf (c :: rest) then some (List.drop cl.length (c :: rest))
    else afterSub cl rest

/-- A whole `OPEN…CLOSE` span anchored at the start of `s`: returns the suffix
after the span when it matches here. -/
def spanEndAt (op cl : List Char) (s : List Char) : Option (List Char) :=
  if op.isPrefixOf s then afterSub cl (s.drop op.length) else none

/-- JavaScript `s.replace(/OPEN[\s\S]*?CLOSE/, '')` (no `g` flag): delete the
first, leftmost-then-shortest, span and keep everything else. -/
def removeFirstSpanData (op cl : List Char) : List Char → List Char
  | [] => []
  | c :: rest =>
    match spanEndAt op cl (c :: rest) with
    | some suffix => suffix
    | none => c :: removeFirstSpanData op cl rest

/-- `rawText.replace(/[OPEN][\s\S]*?[/CLOSE]/, '')` as a `String`. -/
def jsRemoveFirstSpan (op cl : String) (s : String) : String :=
  String.mk (removeFirstSpanData op.data cl.data s.data)

/-- JavaScript `\w`: `[A-Za-z0-9_]`. -/
def isWordChar (c : Char) : Bool :=
  ('a' ≤ c && c ≤ 'z') || ('A' ≤ c && c ≤ 'Z') || ('0' ≤ c && c ≤ '9') || c = '_'

/-- Suffix after the first `'>'`, used for the deterministic `[^>]*>` step of
the heading regexes and of tag stripping: the greedy `[^>]*` cannot cross a
`'>'`, so the `'>'` that closes it is always the first one. -/
def afterGt : List Char → Option (List Char)
  | [] => none
  | c :: rest => if c = '>' then some rest else afterGt rest

/-- JavaScript `s.replace(/<[^>]*>/g, repl)` for a replacement that is either
empty or a single character: every span from a `'<'` to the next `'>'`
(inclusive) is replaced by `repl`; a `'<'` with no later `'>'` is left as is,
and then no further span can match.  The recursion advances past at least one
character per step, so fuel equal to the input length is always sufficient;
the fuel only keeps the recursion structural (kernel-reducible). -/
def replaceTagsFuel (repl : List Char) : Nat → List Char → List Char
  | 0, s => s
  | _, [] => []
  | fuel + 1, c :: rest =>
    if c = '<' then
      match afterGt rest with
      | some r => repl ++ replaceTagsFuel repl fuel r
      | none => c :: rest
    else c :: replaceTagsFuel repl fuel rest

/-- `s.replace(/<[^>]*>/g, repl)` on character lists. -/
def replaceTagsData (repl : List Char) (s : List Char) : List Char :=
  replaceTagsFuel repl s.length s

/-- `s.replace(/<[^>]*>/g, '')` as a `String` (the tag-stripping used on
heading inner text and on candidate title lines). -/
def stripTagsStr (s : String) : String := String.mk (replaceTagsData [] s.data)

/-- `s.replace(/<[^>]*>/g, ' ')` as a `String` (used when classifying the post
body's plain text). -/
def tagsToSpaces (s : String) : String := String.mk (replaceTagsData [' '] s.data)

/-- JavaScript `s.replace(/\s+/g, ' ')`: each maximal whitespace run becomes a
single space.  As above, each step consumes at least one character, so fuel
equal to the input length is always sufficient. -/
def collapseWsFuel : Nat → List Char → List Char
  | 0, s => s
  | _, [] => []
  | fuel + 1, c :: rest =>
    if isJsWhitespace c then ' ' :: collapseWsFuel fuel (rest.dropWhile isJsWhitespace)
    else c :: collapseWsFuel fuel rest

/-- `s.replace(/\s+/g, ' ')` on character lists. -/
def collapseWsData (s : List Char) : List Char :=
  collapseWsFuel s.length s

/-- `s.replace(/\s+/g, ' ')` as a `String`. -/
def collapseWsStr (s : String) : String := String.mk (collapseWsData s.data)

/-- JavaScript `hay.includes(needle)`: substring test. -/
def includesData (needle : List Char) : List Char → Bool
  | [] => needle.isPrefixOf ([] : List Char)
  | c :: rest => needle.isPrefixOf (c :: rest) || includesData needle rest

/-- `hay.includes(needle)` as a `String` predicate. -/
def jsIncludes (hay needle : String) : Bool := includesData needle.data hay.data

/-- ASCII case-insensitive prefix test, for the `/i` flag on the heading
regexes (their patterns contain only ASCII). -/
def ciIsPrefixOf : List Char → List Char → Bool
  | [], _ => true
  | _ :: _, [] => false
  | p :: ps, c :: cs => (p.toLower = c.toLower) && ciIsPrefixOf ps cs

/-- Lazy capture `(.*?)` followed by a case-insensitive closing literal, with
`.` not matching line terminators (no `s` flag): the shortest run of
non-terminator characters up to the closing literal; hitting a line
terminator first makes the whole attempt fail. -/
def ciCaptureBeforeNoNl (cl : List Char) : List Char → Option (List Char)
  | [] => if cl = [] then some [] else none
  | c :: rest =>
    if ciIsPrefixOf cl (c :: rest) then some []
    else if isJsLineTerminator c then none
    else (ciCaptureBeforeNoNl cl rest).map (fun t => c :: t)

/-- One attempt of `/<hN[^>]*>(.*?)<\/hN>/i` anchored at the start of `s`:
the case-insensitive opening literal, then greedily through the first `'>'`
(the unique way `[^>]*>` can match), then the lazy capture up to the
case-insensitive closing literal. -/
def headingMatchAt (tagOpen tagClose : List Char) (s : List Char) : Option (List Char) :=
  if ciIsPrefixOf tagOpen s then
    match afterGt (s.drop tagOpen.length) with
    | some r => ciCaptureBeforeNoNl tagClose r
    | none => none
  else none

/-- `post.match(/<hN[^>]*>(.*?)<\/hN>/i)`: leftmost match, scanning every
start position.  At each position the match attempt is deterministic, so this
is the regex engine's behaviour. -/
def headingCaptureData (tagOpen tagClose : List Char) : List Char → Option (List Char)
  | [] => headingMatchAt tagOpen tagClose []
  | c :: rest =>
    match headingMatchAt tagOpen tagClose (c :: rest) with
    | some r => some r
    | none => headingCaptureData tagOpen tagClose rest

/-- The capture group of `post.match(/<h1[^>]*>(.*?)<\/h1>/i)`. -/
def h1Capture (post : String) : Option String :=
  (headingCaptureData "<h1".data "</h1>".data post.data).map String.mk

/-- The capture group of `post.match(/<h2[^>]*>(.*?)<\/h2>/i)`. -/
def h2Capture (post : String) : Option String :=
  (headingCaptureData "<h2".data "</h2>".data post.data).map String.mk

/-- The guarded return used for both headings in `extractTitleFromContent`:
`if (hMatch && hMatch[1].trim()) return hMatch[1].trim().replace(/<[^>]*>/g, '')`.
Note the guard tests the trimmed inner text, before tags are stripped. -/
def headingTitle (cap : Option String) : Option String :=
  match cap with
  | some inner => if jsTrim inner = "" then none else some (stripTagsStr (jsTrim inner))
  | none => none

/-- `line.match(/^\[\/?\w+\]$/)`: after the optional slash the greedy `\w+`
must run to the closing bracket, which must end the line. -/
def wordThenCloseBracket : List Char → Bool
  | [] => false
  | c :: rest =>
    if isWordChar c then
      match rest with
      | [] => false
      | d :: rest2 => if isWordChar d then wordThenCloseBracket (d :: rest2) else (d = ']' && rest2 = [])
    else false

/-- A bare marker line such as `[TITLE]` or `[/POST]`. -/
def isBareMarkerLine (line : String) : Bool :=
  match line.data with
  | '[' :: rest =>
    (match rest with
     | '/' :: r => wordThenCloseBracket r
     | r => wordThenCloseBracket r)
  | _ => false

/-- The character class of `/^<\/?[\w\s="':;.#-\/\?\&]+>$/`: word characters,
whitespace, `=` `"` `'` `:` `;` `.`, the range `#`–`/`, `?` and `&`
(quote characters written via their code points). -/
def isTagLineClassChar (c : Char) : Bool :=
  isWordChar c || isJsWhitespace c || c = '=' || c = Char.ofNat 34 || c = Char.ofNat 39 ||
  c = ':' || c = ';' || c = '.' || ('#' ≤ c && c ≤ '/') || c = '?' || c = '&'

/-- After `<` and the optional `/`: one or more class characters, then a
closing `>` ending the line.  `>` is outside the class, so the greedy `+`
runs to the first `>`, which must be the last character. -/
def classRunThenGt : List Char → Bool
  | [] => false
  | c :: rest =>
    if isTagLineClassChar c then
      match rest with
      | [] => false
      | d :: rest2 => if isTagLineClassChar d then classRunThenGt (d :: rest2) else (d = '>' && rest2 = [])
    else false

/-- `line.match(/^<\/?[\w\s="':;.#-\/\?\&]+>$/)`: a line that is a single
HTML-tag-like token. -/
def isHtmlTagLine (line : String) : Bool :=
  match line.data with
  | '<' :: rest =>
    (match rest with
     | '/' :: r => classRunThenGt r
     | r => classRunThenGt r)
  | _ => false

/-- The heuristic line scan of `extractTitleFromContent` (stage 2, third
strategy): over the trimmed non-empty lines of the raw text, skip bare marker
lines and single-tag lines; on a line of length 11–149 not starting with
`'<'`, return its tag-stripped trimmed text when that is longer than 10,
otherwise keep scanning.  Returns the empty string when no line qualifies.
JavaScript `.length` counts UTF-16 units; code points coincide for the
basic-plane text this scan sees. -/
def scanTitleLines : List String → String
  | [] => ""
  | line :: rest =>
    if isBareMarkerLine line then scanTitleLines rest
    else if isHtmlTagLine line then scanTitleLines rest
    else if line.length > 10 && line.length < 150 && !(line.data.headD ' ' = '<') then
      let plainText := jsTrim (stripTagsStr line)
      if plainText.length > 10 then plainText else scanTitleLines rest
    else scanTitleLines rest

/-- src/services/geminiService.ts, `extractTitleFromContent` (stage 2 of the
title cascade): first `<h1>`, then first `<h2>`, then the heuristic line scan
over `rawText.split('\n').map(trim).filter(Boolean)`; empty string when all
fail. -/
def extractTitleFromContent (rawText post : String) : String :=
  match headingTitle (h1Capture post) with
  | some t => t
  | none =>
    match headingTitle (h2Capture post) with
    | some t => t
    | none => scanTitleLines (((jsSplitNewline rawText).map jsTrim).filter (fun l => l ≠ ""))

/-- src/services/geminiService.ts, `generateFallbackTitle` (stage 3 of the
title cascade): classify the post's plain text by substring tests and return
a keyword-parameterised template; the default is the first entry of the
template list. -/
def generateFallbackTitle (keyword post : String) : String :=
  let textContent := jsTrim (collapseWsStr (tagsToSpaces post))
  let templates : List String :=
    [keyword ++ ": 최신 동향과 분석",
     keyword ++ "에 대한 모든 것",
     keyword ++ " 완벽 가이드",
     "알아야 할 " ++ keyword ++ " 핵심 정보",
     keyword ++ " 시장 분석 리포트"]
  if jsIncludes textContent "투자" || jsIncludes textContent "시장" then
    keyword ++ " 시장 동향 및 투자 전망"
  else if jsIncludes textContent "기술" || jsIncludes textContent "혁신" then
    keyword ++ ": 기술 혁신과 미래 전망"
  else if jsIncludes textContent "리뷰" || jsIncludes textContent "장점" || jsIncludes textContent "단점" then
    keyword ++ " 심층 분석 및 리뷰"
  else
    templates.headI

/-- The result record of `generateBlogPost` (src/services/geminiService.ts,
`BlogPostResult`). -/
structure BlogPostResult where
  title : String
  post : String
  tags : List String
  imageKeywords : List String
deriving DecidableEq, Repr

/-- `rawText.match(/\[TITLE\]([\s\S]*?)\[\/TITLE\]/)`, capture group. -/
def titleCapture (rawText : String) : Option String :=
  jsMatchBetween "[TITLE]" "[/TITLE]" rawText

/-- `rawText.match(/\[POST\]([\s\S]*?)\[\/POST\]/)`, capture group. -/
def postCapture (rawText : String) : Option String :=
  jsMatchBetween "[POST]" "[/POST]" rawText

/-- `rawText.match(/\[TAGS\]([\s\S]*?)\[\/TAGS\]/)`, capture group. -/
def tagsCapture (rawText : String) : Option String :=
  jsMatchBetween "[TAGS]" "[/TAGS]" rawText

/-- `rawText.match(/\[IMAGE_KEYWORDS\]([\s\S]*?)\[\/IMAGE_KEYWORDS\]/)`, capture group. -/
def imageKeywordsCapture (rawText : String) : Option String :=
  jsMatchBetween "[IMAGE_KEYWORDS]" "[/IMAGE_KEYWORDS]" rawText

/-- The fixed degraded-state fragment substituted when the post body cannot be
reconstructed (src/services/geminiService.ts line 321). -/
def postPlaceholder : String :=
  "<p>블로그 본문을 생성하는 데 실패했습니다. AI가 예상치 못한 형식으로 응답했을 수 있습니다. 다른 키워드나 옵션으로 다시 시도해 보세요.</p>"

/-- Comma-split, trim each piece, drop empties — the normalisation applied to
both TAGS and IMAGE_KEYWORDS (`split(',').map(trim).filter(Boolean)`). -/
def commaList (s : String) : List String :=
  ((jsSplitComma s).map jsTrim).filter (fun t => t ≠ "")

/-- The pure part of src/services/geminiService.ts `generateBlogPost`
(lines 294–338): the marker extraction, the degraded no-schema path, the post
reconstruction, and the three-stage title cascade, applied to the raw model
text. -/
def generateBlogPostCore (keyword rawText : String) : BlogPostResult :=
  let titleMatch := titleCapture rawText
  let postMatch := postCapture rawText
  let tagsMatch := tagsCapture rawText
  let imageKeywordsMatch := imageKeywordsCapture rawText
  let title0 := (titleMatch.map jsTrim).getD ""
  let post0 := (postMatch.map jsTrim).getD ""
  let tagsString := (tagsMatch.map jsTrim).getD ""
  let tags := commaList tagsString
  let imageKeywordsString := (imageKeywordsMatch.map jsTrim).getD ""
  let imageKeywords := commaList imageKeywordsString
  if titleMatch.isNone && postMatch.isNone && tagsMatch.isNone then
    { title := keyword, post := rawText, tags := tags.take 10, imageKeywords := imageKeywords }
  else
    let post1 :=
      if post0 = "" then
        let stripped :=
          jsTrim (jsRemoveFirstSpan "[TAGS]" "[/TAGS]"
                    (jsRemoveFirstSpan "[TITLE]" "[/TITLE]" rawText))
        if stripped = "" then postPlaceholder else stripped
      else post0
    let title1 :=
      if title0 = "" then
        let extracted := extractTitleFromContent rawText post1
        if extracted = "" then generateFallbackTitle keyword post1 else extracted
      else title0
    { title := title1, post := post1, tags := tags.take 10, imageKeywords := imageKeywords }

/-- src/services/geminiService.ts `generateBlogPost` at its error boundary:
the model invocation either yields the response text or fails; an upstream
failure is wrapped with the localized prefix and re-thrown, while a returned
text is processed by the pure core, which is total — every local parsing or
matching failure is absorbed by the fallback cascades. -/
def generateBlogPost (keyword : String) (modelResponse : Except String String) :
    Except String BlogPostResult :=
  match modelResponse with
  | Except.error e => Except.error ("블로그 글 생성 중 오류 발생: " ++ e)
  | Except.ok rawText => Except.ok (generateBlogPostCore keyword rawText)

/-- The fields of a Pexels photo that the injection code reads
(`img.src.large`, `img.alt`, `img.photographer_url`, `img.photographer`). -/
structure MediaAsset where
  srcLarge : String
  alt : String
  photographerUrl : String
  photographer : String
deriving DecidableEq, Repr

/-- The `<figure>` markup template of `fetchAndInjectImages` (the two template
literals at lines 407–414 and 424–431 are byte-identical).  `img.alt ||
fallbackKeyword` falls back when the alt text is empty. -/
def figureHtml (img : MediaAsset) (fallbackKeyword : String) : String :=
  "\n          <figure style=\"margin: 2.5em 0; text-align: center; clear: both; page-break-inside: avoid;\">\n            <img src=\""
    ++ img.srcLarge ++ "\" alt=\"" ++ (if img.alt = "" then fallbackKeyword else img.alt)
    ++ "\" style=\"max-width: 100%; height: auto; border-radius: 8px; box-shadow: 0 4px 6px rgba(0,0,0,0.1);\" />\n            <figcaption style=\"font-size: 0.85em; color: #888; margin-top: 0.7em;\">\n              Photo by <a href=\""
    ++ img.photographerUrl ++ "\" target=\"_blank\" rel=\"noopener noreferrer\">"
    ++ img.photographer
    ++ "</a> on <a href=\"https://www.pexels.com\" target=\"_blank\" rel=\"noopener noreferrer\">Pexels</a>\n            </figcaption>\n          </figure>\n        "

/-- JavaScript `post.split('</p>')` specialised to the literal separator the
source passes: leftmost, non-overlapping splitting on `</p>`. -/
def splitParaData : List Char → List (List Char)
  | '<' :: '/' :: 'p' :: '>' :: rest => [] :: splitParaData rest
  | c :: rest =>
    match splitParaData rest with
    | [] => [[]]
    | h :: t => (c :: h) :: t
  | [] => [[]]

/-- `post.split('</p>')` as `String`s. -/
def jsSplitPara (post : String) : List String := (splitParaData post.data).map String.mk

/-- The three proportional insertion indices of `fetchAndInjectImages`:
`Math.floor(n*0.2)`, `Math.floor(n*0.5)`, `Math.floor(n*0.8)`.  In exact
arithmetic these are n/5, n/2 and 4n/5; the double-precision products the
source computes agree with the exact values for every attainable paragraph
count, because 0.5 is exact and the representation errors of 0.2 and 0.8 are
below half an ulp of the products. -/
def injectionPoints (n : Nat) : List Nat := [n / 5, n / 2, n * 4 / 5]

/-- The injection loop of `fetchAndInjectImages` (lines 402–418): emit each
fragment followed by the `</p>` delimiter, and whenever an unused asset
remains and the count of paragraphs emitted so far is one of the target
points, emit that asset's figure markup and advance the asset cursor. -/
def injectLoop (images : List MediaAsset) (points : List Nat) (fallback : String) :
    List String → Nat → Nat → String
  | [], _, _ => ""
  | p :: rest, i, k =>
    match images[k]? with
    | some img =>
      if points.contains (i + 1) then
        p ++ "</p>" ++ figureHtml img fallback ++ injectLoop images points fallback rest (i + 1) (k + 1)
      else
        p ++ "</p>" ++ injectLoop images points fallback rest (i + 1) k
    | none => p ++ "</p>" ++ injectLoop images points fallback rest (i + 1) k

/-- The pieces the injection loop emits, kept apart so the placement of the
figures can be stated: each paragraph fragment in order, with a figure after
the fragments whose 1-based position is a target point while assets remain. -/
inductive Piece where
  | para (s : String)
  | fig (a : MediaAsset)
deriving DecidableEq, Repr

/-- The emitted-piece view of the injection loop. -/
def injectPieces (images : List MediaAsset) (points : List Nat) :
    List String → Nat → Nat → List Piece
  | [], _, _ => []
  | p :: rest, i, k =>
    match images[k]? with
    | some img =>
      if points.contains (i + 1) then
        Piece.para p :: Piece.fig img :: injectPieces images points rest (i + 1) (k + 1)
      else
        Piece.para p :: injectPieces images points rest (i + 1) k
    | none => Piece.para p :: injectPieces images points rest (i + 1) k

/-- Rendering one emitted piece back to the HTML the loop appends. -/
def renderPiece (fallback : String) : Piece → String
  | Piece.para s => s ++ "</p>"
  | Piece.fig a => figureHtml a fallback

/-- Concatenation in emission order (JavaScript `+=` accumulation). -/
def strJoin : List String → String
  | [] => ""
  | s :: rest => s ++ strJoin rest

/-- The number of figure blocks among the emitted pieces. -/
def figCount (ps : List Piece) : Nat :=
  ps.countP (fun p => match p with | Piece.fig _ => true | _ => false)

/-- The assets of the emitted figures, in emission order. -/
def figsOf (ps : List Piece) : List MediaAsset :=
  ps.filterMap (fun p => match p with | Piece.fig a => some a | _ => none)

/-- The paragraph fragments among the emitted pieces, in order. -/
def parasOf (ps : List Piece) : List String :=
  ps.filterMap (fun p => match p with | Piece.para s => some s | _ => none)

/-- How many loop iterations have their 1-based paragraph position among the
target points: the number of candidate insertion points of a body with `n`
fragments. -/
def candidatePointCount (points : List Nat) (n : Nat) : Nat :=
  (List.range' 1 n).countP (fun j => points.contains j)

/-- The pure injection part of src/services/geminiService.ts
`fetchAndInjectImages` (lines 384–437), taking the already-fetched asset
list: with no assets the body is returned unchanged; with more than three
fragments the proportional loop runs; otherwise one figure is placed after
the first fragment. -/
def fetchAndInjectImagesCore (post : String) (images : List MediaAsset)
    (fallbackKeyword : String) : String × Bool :=
  if images.isEmpty then (post, false)
  else
    let paragraphs := jsSplitPara post
    let totalParagraphs := paragraphs.length
    if totalParagraphs > 3 then
      (injectLoop images (injectionPoints totalParagraphs) fallbackKeyword paragraphs 0 0, true)
    else
      match paragraphs, images with
      | p0 :: rest, img :: _ =>
        (p0 ++ "</p>" ++ figureHtml img fallbackKeyword ++ String.intercalate "</p>" rest, true)
      | _, _ => (post, false)

/-- A grounding/citation chunk: a `(url, label)` pair from the search-grounded
model invocation (spec §3, `RawModelResponse.citationChunks`). -/
structure CitationChunk where
  url : String
  label : String
deriving DecidableEq, Repr

/-- The source-title separators of the Citation Resolver: hyphen, en-dash,
em-dash (spec §4.3). -/
def outletSeparators : List Char := ['-', Char.ofNat 0x2013, Char.ofNat 0x2014]

/-- The suffix after the last occurrence of any separator character, if one
occurs. -/
def afterLastSep (seps : List Char) : List Char → Option (List Char)
  | [] => none
  | c :: rest =>
    match afterLastSep seps rest with
    | some r => some r
    | none => if seps.contains c then some rest else none

/-- Modelled from the spec: the Citation Resolver's outlet-name extraction
(§4.3) — the Citation Resolver itself has no implementation under src/.  A
source title is expected to end with a separator followed by an outlet name;
the trailing segment after the last separator is extracted (trimmed), and a
title with no separator has no matchable outlet name. -/
def extractOutlet (title : String) : Option String :=
  (afterLastSep outletSeparators title.data).map (fun r => jsTrim (String.mk r))

/-- Modelled from the spec: a chunk label matches when it contains, or is
contained by, any expected domain string (§4.3). -/
def labelMatchesDomains (domains : List String) (label : String) : Bool :=
  domains.any (fun d => jsIncludes label d || jsIncludes d label)

/-- The first unconsumed chunk of the pool whose label matches the expected
domain set, with its position. -/
def findDomainMatch (domains : List String) :
    List (CitationChunk × Bool) → Option (Nat × CitationChunk)
  | [] => none
  | (c, used) :: rest =>
    if !used && labelMatchesDomains domains c.label then some (0, c)
    else (findDomainMatch domains rest).map (fun r => (r.1 + 1, r.2))

/-- Mark the chunk at the given position consumed. -/
def consumeAt : List (CitationChunk × Bool) → Nat → List (CitationChunk × Bool)
  | [], _ => []
  | x :: rest, 0 => (x.1, true) :: rest
  | x :: rest, Nat.succ n => x :: consumeAt rest n

/-- The rendering decision for one source title: bound to a URL, or plain
unlinked text. -/
inductive CitationBinding where
  | linked (title url : String)
  | plain (title : String)
deriving DecidableEq, Repr

/-- Modelled from the spec: the Citation Resolver's per-source matching step
(§4.3), parameterised by the outlet-name → expected-domains table.  With a
non-empty expected-domain set, the first unconsumed chunk whose label matches
is bound and consumed; otherwise the chunk at the source's own position is
bound if unconsumed; otherwise the source stays plain text. -/
def resolveOne (table : String → List String) (pool : List (CitationChunk × Bool))
    (title : String) (idx : Nat) : CitationBinding × List (CitationChunk × Bool) :=
  let domains :=
    match extractOutlet title with
    | some o => table o
    | none => []
  match (if domains.isEmpty then none else findDomainMatch domains pool) with
  | some r => (CitationBinding.linked title r.2.url, consumeAt pool r.1)
  | none =>
    match pool[idx]? with
    | some (c, used) =>
      if used then (CitationBinding.plain title, pool)
      else (CitationBinding.linked title c.url, consumeAt pool idx)
    | none => (CitationBinding.plain title, pool)

/-- Modelled from the spec: the Citation Resolver's pass over the source
titles in original order, threading the consumed flags (§4.3). -/
def resolveSources (table : String → List String) :
    List String → Nat → List (CitationChunk × Bool) → List CitationBinding
  | [], _, _ => []
  | t :: rest, idx, pool =>
    (resolveOne table pool t idx).1 ::
      resolveSources table rest (idx + 1) (resolveOne table pool t idx).2

/-- Modelled from the spec: the Citation Resolver's entry point — runs only
when both the source titles and the chunk pool are non-empty, caps the
sources to the first 5, and starts with every chunk unconsumed (§4.3). -/
def citationResolver (table : String → List String) (sourceTitles : List String)
    (chunks : List CitationChunk) : List CitationBinding :=
  if sourceTitles.isEmpty || chunks.isEmpty then []
  else resolveSources table (sourceTitles.take 5) 0 (chunks.map (fun c => (c, false)))

/-- A representative outlet-name → domains table containing the spec's own
example (§8: `연합뉴스` → `yna.co.kr`). -/
def demoTable (outlet : String) : List String :=
  if outlet = "연합뉴스" then ["yna.co.kr"] else []

/-- Concrete assets for the worked media-injection examples. -/
def demoAsset1 : MediaAsset := ⟨"https://img1", "alt1", "https://ph1", "Ph1"⟩

def demoAsset2 : MediaAsset := ⟨"https://img2", "alt2", "https://ph2", "Ph2"⟩

def demoAsset3 : MediaAsset := ⟨"https://img3", "alt3", "https://ph3", "Ph3"⟩

/-- A body with exactly ten paragraphs (spec §8's media-injection example);
splitting it on the closing delimiter yields eleven fragments, the last
empty. -/
def demoBody10 : String :=
  "<p>P1</p><p>P2</p><p>P3</p><p>P4</p><p>P5</p><p>P6</p><p>P7</p><p>P8</p><p>P9</p><p>P10</p>"

/-- A four-paragraph body ending in the delimiter, for the trailing-delimiter
frame effect. -/
def demoBody4 : String := "<p>a</p><p>b</p><p>c</p><p>d</p>"

/-- The pieces the injection loop emits for `demoBody10` with three assets:
figures exactly after the 2nd, 5th and 8th paragraphs. -/
def demoPieces10 : List Piece :=
  [Piece.para "<p>P1", Piece.para "<p>P2", Piece.fig demoAsset1,
   Piece.para "<p>P3", Piece.para "<p>P4", Piece.para "<p>P5", Piece.fig demoAsset2,
   Piece.para "<p>P6", Piece.para "<p>P7", Piece.para "<p>P8", Piece.fig demoAsset3,
   Piece.para "<p>P9", Piece.para "<p>P10", Piece.para ""]

/-! ## General lemmas -/

theorem append_ne_empty_right (a b : String) (hb : b ≠ "") : a ++ b ≠ "" := by
  intro hab
  apply hb
  have h := congrArg String.data hab
  rw [String.data_append] at h
  exact String.ext (List.append_eq_nil.mp h).2

/-- Every reachable branch of `generateFallbackTitle` returns the keyword
followed by a fixed non-empty template suffix. -/
theorem generateFallbackTitle_cases (keyword post : String) :
    ∃ suffix, suffix ≠ "" ∧ generateFallbackTitle keyword post = keyword ++ suffix := by
  unfold generateFallbackTitle
  dsimp only
  split
  · exact ⟨" 시장 동향 및 투자 전망", by decide, rfl⟩
  · split
    · exact ⟨": 기술 혁신과 미래 전망", by decide, rfl⟩
    · split
      · exact ⟨" 심층 분석 및 리뷰", by decide, rfl⟩
      · exact ⟨": 최신 동향과 분석", by decide, rfl⟩

theorem generateFallbackTitle_ne_empty (keyword post : String) :
    generateFallbackTitle keyword post ≠ "" := by
  obtain ⟨s, hs, he⟩ := generateFallbackTitle_cases keyword post
  rw [he]
  exact append_ne_empty_right keyword s hs

/-- The two-stage tail of the title cascade never yields the empty string:
either the already-extracted title is non-empty, or the stage-2 extraction is
non-empty, or the stage-3 fallback fires. -/
theorem titleCascade_ne_empty (keyword rawText post1 title0 : String) :
    (if title0 = "" then
       (if extractTitleFromContent rawText post1 = "" then generateFallbackTitle keyword post1
        else extractTitleFromContent rawText post1)
     else title0) ≠ "" := by
  split
  · split
    · exact generateFallbackTitle_ne_empty keyword post1
    · next hx => exact hx
  · next ht => exact ht

theorem splitParaData_ne_nil (l : List Char) : splitParaData l ≠ [] := by
  induction l using splitParaData.induct <;> simp_all [splitParaData]

theorem jsSplitPara_ne_nil (post : String) : jsSplitPara post ≠ [] := by
  unfold jsSplitPara
  intro h
  exact splitParaData_ne_nil post.data (List.map_eq_nil_iff.mp h)

/-- Re-appending the delimiter to every fragment of the split and joining
yields the original text with one extra trailing delimiter. -/
theorem splitParaData_join (l : List Char) :
    ((splitParaData l).map (fun cs => cs ++ ['<', '/', 'p', '>'])).flatten =
      l ++ ['<', '/', 'p', '>'] := by
  induction l using splitParaData.induct with
  | case1 rest ih => simp [splitParaData, ih]
  | case2 c rest hne heq =>
    exact absurd heq (splitParaData_ne_nil rest)
  | case3 c rest hne h t heq ih =>
    rw [splitParaData]
    · simp only [heq]
      rw [heq] at ih
      simp only [List.map_cons, List.flatten_cons, List.cons_append] at ih ⊢
      exact congrArg (fun x => c :: x) ih
    · exact hne
  | case4 => simp [splitParaData]

theorem mk_append (a b : List Char) : String.mk a ++ String.mk b = String.mk (a ++ b) := rfl

theorem para_delim_eq : ("</p>" : String) = String.mk ['<', '/', 'p', '>'] := rfl

theorem strJoin_map_mk_append (M : List (List Char)) :
    strJoin ((M.map String.mk).map (fun s => s ++ "</p>")) =
      String.mk ((M.map (fun cs => cs ++ ['<', '/', 'p', '>'])).flatten) := by
  induction M with
  | nil => rfl
  | cons cs M ih =>
    simp only [List.map_cons, strJoin, List.flatten_cons, ih, para_delim_eq, mk_append]

/-- String-level statement: splitting on `</p>` and re-joining each fragment
with the delimiter appended reproduces the body plus one trailing delimiter. -/
theorem strJoin_split_para (post : String) :
    strJoin ((jsSplitPara post).map (fun s => s ++ "</p>")) = post ++ "</p>" := by
  unfold jsSplitPara
  rw [strJoin_map_mk_append, splitParaData_join, para_delim_eq]
  exact (mk_append post.data ['<', '/', 'p', '>']).symm

/-- The string the injection loop accumulates is the rendering of its emitted
pieces in order. -/
theorem injectLoop_eq_pieces (images : List MediaAsset) (points : List Nat) (fallback : String)
    (frags : List String) (i k : Nat) :
    injectLoop images points fallback frags i k =
      strJoin ((injectPieces images points frags i k).map (renderPiece fallback)) := by
  induction frags generalizing i k with
  | nil => rfl
  | cons p rest ih =>
    cases hk : images[k]? with
    | none => simp [injectLoop, injectPieces, hk, strJoin, renderPiece, ih, String.append_assoc]
    | some img =>
      by_cases hc : (i + 1) ∈ points
      · simp [injectLoop, injectPieces, hk, hc, strJoin, renderPiece, ih, String.append_assoc]
      · simp [injectLoop, injectPieces, hk, hc, strJoin, renderPiece, ih, String.append_assoc]

/-- At most one figure per remaining asset: the asset cursor never runs past
the end of the asset list. -/
theorem figCount_le_assets (images : List MediaAsset) (points : List Nat)
    (frags : List String) (i k : Nat) :
    figCount (injectPieces images points frags i k) ≤ images.length - k := by
  induction frags generalizing i k with
  | nil => simp [injectPieces, figCount]
  | cons p rest ih =>
    cases hk : images[k]? with
    | none => simpa [injectPieces, hk, figCount, List.countP_cons] using ih (i + 1) k
    | some img =>
      have hklt : k < images.length := by
        by_contra hge
        rw [List.getElem?_eq_none (by omega)] at hk
        cases hk
      by_cases hc : (i + 1) ∈ points
      · have h2 := ih (i + 1) (k + 1)
        simp [injectPieces, hk, hc, figCount, List.countP_cons] at h2 ⊢
        omega
      · simpa [injectPieces, hk, hc, figCount, List.countP_cons] using ih (i + 1) k

/-- At most one figure per loop iteration whose 1-based paragraph position is
a target point. -/
theorem figCount_le_candidates (images : List MediaAsset) (points : List Nat)
    (frags : List String) (i k : Nat) :
    figCount (injectPieces images points frags i k) ≤
      (List.range' (i + 1) frags.length).countP (fun j => points.contains j) := by
  induction frags generalizing i k with
  | nil => simp [injectPieces, figCount]
  | cons p rest ih =>
    rw [List.length_cons, List.range'_succ, List.countP_cons]
    cases hk : images[k]? with
    | none =>
      have h2 := ih (i + 1) k
      simp [injectPieces, hk, figCount, List.countP_cons] at h2 ⊢
      omega
    | some img =>
      by_cases hc : (i + 1) ∈ points
      · have h2 := ih (i + 1) (k + 1)
        simp [injectPieces, hk, hc, figCount, List.countP_cons] at h2 ⊢
        omega
      · have h2 := ih (i + 1) k
        simp [injectPieces, hk, hc, figCount, List.countP_cons] at h2 ⊢
        omega

theorem drop_eq_cons_of_getElem? {α : Type} (l : List α) (k : Nat) (a : α)
    (h : l[k]? = some a) : l.drop k = a :: l.drop (k + 1) := by
  induction l generalizing k with
  | nil => simp at h
  | cons x xs ih =>
    cases k with
    | zero =>
      simp at h
      simp [h]
    | succ n =>
      simp only [List.getElem?_cons_succ] at h
      simpa using ih n h

/-- The figures are built from the assets in order: the emitted assets are an
initial segment of the remaining asset list. -/
theorem figsOf_injectPieces (images : List MediaAsset) (points : List Nat)
    (frags : List String) (i k : Nat) :
    figsOf (injectPieces images points frags i k) =
      (images.drop k).take (figCount (injectPieces images points frags i k)) := by
  induction frags generalizing i k with
  | nil => simp [injectPieces, figsOf, figCount]
  | cons p rest ih =>
    cases hk : images[k]? with
    | none => simpa [injectPieces, hk, figsOf, figCount, List.countP_cons] using ih (i + 1) k
    | some img =>
      by_cases hc : (i + 1) ∈ points
      · rw [drop_eq_cons_of_getElem? images k img hk]
        have h2 := ih (i + 1) (k + 1)
        simp [injectPieces, hk, hc, figsOf, figCount, List.countP_cons] at h2 ⊢
        exact h2
      · simpa [injectPieces, hk, hc, figsOf, figCount, List.countP_cons] using ih (i + 1) k

/-- The paragraph fragments pass through the loop unchanged and in order. -/
theorem parasOf_injectPieces (images : List MediaAsset) (points : List Nat)
    (frags : List String) (i k : Nat) :
    parasOf (injectPieces images points frags i k) = frags := by
  induction frags generalizing i k with
  | nil => rfl
  | cons p rest ih =>
    cases hk : images[k]? with
    | none => simpa [injectPieces, hk, parasOf] using ih (i + 1) k
    | some img =>
      by_cases hc : (i + 1) ∈ points
      · simpa [injectPieces, hk, hc, parasOf] using ih (i + 1) (k + 1)
      · simpa [injectPieces, hk, hc, parasOf] using ih (i + 1) k

/-! ## Claim theorems -/

/-- C1: for every raw model response and non-empty request keyword, the title
produced by the pipeline is non-empty; and the stage-3 templated-synthesis
fallback returns, for every keyword and post body, a non-empty string that
contains the original keyword. -/
theorem generateBlogPost_title_nonempty (keyword rawText post : String)
    (hk : keyword ≠ "") :
    (generateBlogPostCore keyword rawText).title ≠ "" ∧
    generateFallbackTitle keyword post ≠ "" ∧
    ∃ p q, generateFallbackTitle keyword post = p ++ keyword ++ q := by
  refine ⟨?_, generateFallbackTitle_ne_empty keyword post, ?_⟩
  · unfold generateBlogPostCore
    dsimp only
    split
    · exact hk
    · exact titleCascade_ne_empty keyword rawText _ _
  · obtain ⟨s, _, he⟩ := generateFallbackTitle_cases keyword post
    refine ⟨"", s, ?_⟩
    rw [he]
    apply String.ext
    simp [String.data_append]

/-- Witness for C1 at a concrete keyword and raw response. -/
theorem generateBlogPost_title_nonempty_witness :
    ("AI" : String) ≠ "" ∧ (generateBlogPostCore "AI" "raw").title ≠ "" :=
  ⟨by decide, (generateBlogPost_title_nonempty "AI" "raw" "" (by decide)).1⟩

/-- C2: a raw text containing none of the TITLE, POST, TAGS marker pairs is
handled without error: the whole raw text verbatim becomes the post body and
the request keyword becomes the title (the degraded no-schema path). -/
theorem generateBlogPost_no_markers (keyword rawText : String)
    (ht : titleCapture rawText = none) (hp : postCapture rawText = none)
    (hg : tagsCapture rawText = none) :
    generateBlogPost keyword (Except.ok rawText) =
      Except.ok { title := keyword, post := rawText, tags := [],
                  imageKeywords := commaList (((imageKeywordsCapture rawText).map jsTrim).getD "") } := by
  simp only [generateBlogPost, generateBlogPostCore, ht, hp, hg]
  simp [commaList, jsSplitComma, splitCharData, jsTrim, jsTrimData]

/-- Witness for C2 at a concrete marker-free raw text. -/
theorem generateBlogPost_no_markers_witness :
    generateBlogPost "k" (Except.ok "hello") =
      Except.ok { title := "k", post := "hello", tags := [], imageKeywords := [] } := by
  have h := generateBlogPost_no_markers "k" "hello" (by decide) (by decide) (by decide)
  rw [h]
  have h2 : commaList (((imageKeywordsCapture "hello").map jsTrim).getD "") = ([] : List String) := by
    decide
  rw [h2]

/-- C7: the pipeline raises an error exactly when the model invocation fails,
and then the upstream message is embedded after the localized prefix; a
returned text is always processed to a result by the total core, so local
parsing and matching failures never surface as errors. -/
theorem generateBlogPost_error_boundary (keyword e raw : String) :
    generateBlogPost keyword (Except.error e) =
      Except.error ("블로그 글 생성 중 오류 발생: " ++ e) ∧
    generateBlogPost keyword (Except.ok raw) =
      Except.ok (generateBlogPostCore keyword raw) :=
  ⟨rfl, rfl⟩

/-- C8: with an empty asset list the Media Injection Engine returns the body
unchanged with `imagesFound = false`; hence re-running it on its own output
with zero new assets is a no-op. -/
theorem fetchAndInjectImages_empty_assets (post post2 fallback fallback2 : String)
    (images : List MediaAsset) :
    fetchAndInjectImagesCore post [] fallback = (post, false) ∧
    fetchAndInjectImagesCore (fetchAndInjectImagesCore post2 images fallback2).1 [] fallback2 =
      ((fetchAndInjectImagesCore post2 images fallback2).1, false) :=
  ⟨rfl, rfl⟩

/-- Shared: on a body with more than three fragments and a non-empty asset
list, the engine returns the rendered pieces of the proportional loop. -/
theorem fetchAndInjectImagesCore_long (post fallback : String) (images : List MediaAsset)
    (himg : images ≠ []) (hn : 3 < (jsSplitPara post).length) :
    fetchAndInjectImagesCore post images fallback =
      (strJoin ((injectPieces images (injectionPoints (jsSplitPara post).length)
          (jsSplitPara post) 0 0).map (renderPiece fallback)), true) := by
  obtain ⟨a, as, rfl⟩ := List.exists_cons_of_ne_nil himg
  simp only [fetchAndInjectImagesCore, List.isEmpty_cons, Bool.false_eq_true, if_false]
  rw [if_pos hn, injectLoop_eq_pieces]

/-- C3: with more than three fragments, the loop places figures exactly at
the emitted-paragraph counts `floor(n*0.2)`, `floor(n*0.5)`, `floor(n*0.8)`,
consuming assets in order, with at most one insertion per target index; the
figure count never exceeds `min` of the asset count and the number of
candidate insertion points; in particular a ten-paragraph body with three
assets receives exactly three figures, after paragraphs 2, 5 and 8. -/
theorem fetchAndInjectImages_proportional (post fallback : String) (images : List MediaAsset)
    (himg : images ≠ []) (hn : 3 < (jsSplitPara post).length) :
    fetchAndInjectImagesCore post images fallback =
      (strJoin ((injectPieces images (injectionPoints (jsSplitPara post).length)
          (jsSplitPara post) 0 0).map (renderPiece fallback)), true) ∧
    figCount (injectPieces images (injectionPoints (jsSplitPara post).length)
        (jsSplitPara post) 0 0) ≤
      min images.length
        (candidatePointCount (injectionPoints (jsSplitPara post).length)
          (jsSplitPara post).length) ∧
    figsOf (injectPieces images (injectionPoints (jsSplitPara post).length)
        (jsSplitPara post) 0 0) =
      images.take (figCount (injectPieces images (injectionPoints (jsSplitPara post).length)
          (jsSplitPara post) 0 0)) ∧
    injectPieces [demoAsset1, demoAsset2, demoAsset3]
        (injectionPoints (jsSplitPara demoBody10).length) (jsSplitPara demoBody10) 0 0 =
      demoPieces10 ∧
    figCount demoPieces10 = 3 := by
  refine ⟨fetchAndInjectImagesCore_long post fallback images himg hn, ?_, ?_, by decide, by decide⟩
  · refine le_min ?_ ?_
    · simpa using figCount_le_assets images
        (injectionPoints (jsSplitPara post).length) (jsSplitPara post) 0 0
    · simpa [candidatePointCount] using figCount_le_candidates images
        (injectionPoints (jsSplitPara post).length) (jsSplitPara post) 0 0
  · simpa using figsOf_injectPieces images
      (injectionPoints (jsSplitPara post).length) (jsSplitPara post) 0 0

/-- Witness for C3: the ten-paragraph example body with three assets. -/
theorem fetchAndInjectImages_proportional_witness :
    ([demoAsset1, demoAsset2, demoAsset3] : List MediaAsset) ≠ [] ∧
    3 < (jsSplitPara demoBody10).length ∧
    figCount (injectPieces [demoAsset1, demoAsset2, demoAsset3]
        (injectionPoints (jsSplitPara demoBody10).length) (jsSplitPara demoBody10) 0 0) ≤
      min ([demoAsset1, demoAsset2, demoAsset3] : List MediaAsset).length
        (candidatePointCount (injectionPoints (jsSplitPara demoBody10).length)
          (jsSplitPara demoBody10).length) :=
  ⟨by decide, by decide,
   (fetchAndInjectImages_proportional demoBody10 "kw" [demoAsset1, demoAsset2, demoAsset3]
      (by decide) (by decide)).2.1⟩

/-- C9: with at most three fragments and a non-empty asset list, exactly one
figure, built from the first asset, is inserted immediately after the first
paragraph; the remaining assets are discarded. -/
theorem fetchAndInjectImages_short_body (post fallback : String) (img : MediaAsset)
    (more : List MediaAsset) (hn : (jsSplitPara post).length ≤ 3) :
    fetchAndInjectImagesCore post (img :: more) fallback =
      ((jsSplitPara post).headI ++ "</p>" ++ figureHtml img fallback ++
        String.intercalate "</p>" (jsSplitPara post).tail, true) := by
  obtain ⟨p0, rest, hsplit⟩ : ∃ p0 rest, jsSplitPara post = p0 :: rest := by
    cases h : jsSplitPara post with
    | nil => exact absurd h (jsSplitPara_ne_nil post)
    | cons a b => exact ⟨a, b, rfl⟩
  have hle : ¬ ((jsSplitPara post).length > 3) := by omega
  simp only [fetchAndInjectImagesCore, List.isEmpty_cons, Bool.false_eq_true, if_false]
  rw [hsplit] at hle ⊢
  simp [if_neg hle]
  exact fun hcontra => absurd hcontra hle

/-- Witness for C9: a two-fragment body with two available assets. -/
theorem fetchAndInjectImages_short_body_witness :
    (jsSplitPara "<p>a</p>").length ≤ 3 ∧
    fetchAndInjectImagesCore "<p>a</p>" [demoAsset1, demoAsset2] "kw" =
      ((jsSplitPara "<p>a</p>").headI ++ "</p>" ++ figureHtml demoAsset1 "kw" ++
        String.intercalate "</p>" (jsSplitPara "<p>a</p>").tail, true) :=
  ⟨by decide,
   fetchAndInjectImages_short_body "<p>a</p>" "kw" demoAsset1 [demoAsset2] (by decide)⟩

/-- C10: on a body ending in the delimiter with more than three fragments and
assets available, the output is not the input with figures inserted: the
final empty fragment is re-emitted with a delimiter, so the paragraph part of
the output is the input body followed by one extra trailing delimiter. -/
theorem fetchAndInjectImages_trailing_delimiter (post fallback pre : String)
    (images : List MediaAsset) (himg : images ≠ [])
    (hn : 3 < (jsSplitPara post).length) (hend : post = pre ++ "</p>") :
    strJoin ((parasOf (injectPieces images (injectionPoints (jsSplitPara post).length)
        (jsSplitPara post) 0 0)).map (fun s => s ++ "</p>")) = post ++ "</p>" ∧
    post ++ "</p>" ≠ post ∧
    fetchAndInjectImagesCore post images fallback =
      (strJoin ((injectPieces images (injectionPoints (jsSplitPara post).length)
          (jsSplitPara post) 0 0).map (renderPiece fallback)), true) := by
  refine ⟨?_, ?_, fetchAndInjectImagesCore_long post fallback images himg hn⟩
  · rw [parasOf_injectPieces]
    exact strJoin_split_para post
  · intro h
    have hlen := congrArg String.length h
    rw [String.length_append] at hlen
    have h4 : ("</p>" : String).length = 4 := by decide
    omega

/-- Witness for C10: a four-paragraph body ending in the delimiter with one
asset. -/
theorem fetchAndInjectImages_trailing_delimiter_witness :
    strJoin ((parasOf (injectPieces [demoAsset1]
        (injectionPoints (jsSplitPara demoBody4).length) (jsSplitPara demoBody4) 0 0)).map
        (fun s => s ++ "</p>")) = demoBody4 ++ "</p>" ∧
    demoBody4 ++ "</p>" ≠ demoBody4 :=
  ⟨(fetchAndInjectImages_trailing_delimiter demoBody4 "kw" "<p>a</p><p>b</p><p>c</p><p>d"
      [demoAsset1] (by decide) (by decide) (by decide)).1,
   (fetchAndInjectImages_trailing_delimiter demoBody4 "kw" "<p>a</p><p>b</p><p>c</p><p>d"
      [demoAsset1] (by decide) (by decide) (by decide)).2.1⟩

/-- C5 counterexample: the h1 guard tests the trimmed inner text, not its
tag-stripped form.  For the body `<h1><br/></h1><h2>Bar</h2>` the first h1's
stripped text is empty and an h2 with non-empty stripped text is present, yet
title extraction returns the empty string (the h1 branch fires and strips to
nothing) instead of `"Bar"` as the claim states. -/
theorem extractTitle_h1_guard_cex :
    h1Capture "<h1><br/></h1><h2>Bar</h2>" = some "<br/>" ∧
    stripTagsStr (jsTrim "<br/>") = "" ∧
    h2Capture "<h1><br/></h1><h2>Bar</h2>" = some "Bar" ∧
    stripTagsStr (jsTrim "Bar") = "Bar" ∧
    extractTitleFromContent "" "<h1><br/></h1><h2>Bar</h2>" = "" ∧
    extractTitleFromContent "" "<h1><br/></h1><h2>Bar</h2>" ≠ "Bar" :=
  ⟨by decide, by decide, by decide, by decide, by decide, by decide⟩

/-- C5 (amended): when the TITLE marker is absent, title extraction returns
the tag-stripped trimmed inner text of the first `<h1>` whenever that
stripped text is non-empty; the first `<h2>`'s tag-stripped trimmed text is
returned only when the h1 is absent or its trimmed inner text is empty (not
merely stripping to empty) and the h2's trimmed inner text is non-empty. -/
theorem extractTitle_heading_cascade (raw body inner : String) :
    (h1Capture body = some inner → stripTagsStr (jsTrim inner) ≠ "" →
      extractTitleFromContent raw body = stripTagsStr (jsTrim inner)) ∧
    ((h1Capture body = none ∨ (h1Capture body = some inner ∧ jsTrim inner = "")) →
      ∀ inner2, h2Capture body = some inner2 → jsTrim inner2 ≠ "" →
        extractTitleFromContent raw body = stripTagsStr (jsTrim inner2)) := by
  constructor
  · intro h1 hs
    have ht : jsTrim inner ≠ "" := by
      intro he
      apply hs
      rw [he]
      rfl
    unfold extractTitleFromContent
    rw [h1]
    simp [headingTitle, ht]
  · intro hor inner2 h2 ht2
    unfold extractTitleFromContent
    rw [h2]
    rcases hor with hnone | ⟨hsome, htrim⟩
    · rw [hnone]
      simp [headingTitle, ht2]
    · rw [hsome]
      simp [headingTitle, htrim, ht2]

/-- Witness for C5's amended cascade: both branches at concrete bodies. -/
theorem extractTitle_heading_cascade_witness :
    extractTitleFromContent "" "<h1>Foo</h1>" = "Foo" ∧
    extractTitleFromContent "" "<h1> </h1><h2>Bar</h2>" = "Bar" :=
  ⟨((extractTitle_heading_cascade "" "<h1>Foo</h1>" "Foo").1
      (by decide) (by decide)).trans (by decide),
   ((extractTitle_heading_cascade "" "<h1> </h1><h2>Bar</h2>" " ").2
      (Or.inr ⟨by decide, by decide⟩) "Bar" (by decide) (by decide)).trans (by decide)⟩

/-- C6 counterexample: SOURCES marker spans are not stripped during post
reconstruction (the code removes only the first TITLE and the first TAGS
span).  For `[TITLE]T[/TITLE][SOURCES]S[/SOURCES]` the claim predicts an
empty reconstruction and hence the placeholder; the code keeps the SOURCES
span as the post body. -/
theorem post_reconstruction_sources_cex :
    titleCapture "[TITLE]T[/TITLE][SOURCES]S[/SOURCES]" = some "T" ∧
    postCapture "[TITLE]T[/TITLE][SOURCES]S[/SOURCES]" = none ∧
    (generateBlogPostCore "k" "[TITLE]T[/TITLE][SOURCES]S[/SOURCES]").post =
      "[SOURCES]S[/SOURCES]" ∧
    (generateBlogPostCore "k" "[TITLE]T[/TITLE][SOURCES]S[/SOURCES]").post ≠ postPlaceholder :=
  ⟨by decide, by decide, by decide, by decide⟩

/-- C6 (amended): for well-formed input whose POST content is empty or
absent, the post body is the raw text with the first recognized TITLE span
and the first recognized TAGS span stripped out (SOURCES spans are not
recognized), trimmed; if that is empty, the fixed placeholder is substituted;
no error is raised. -/
theorem generateBlogPost_post_reconstruction (keyword rawText : String)
    (hwf : ¬(titleCapture rawText = none ∧ postCapture rawText = none ∧
      tagsCapture rawText = none))
    (hpost : ((postCapture rawText).map jsTrim).getD "" = "") :
    generateBlogPost keyword (Except.ok rawText) =
      Except.ok (generateBlogPostCore keyword rawText) ∧
    (generateBlogPostCore keyword rawText).post =
      (if jsTrim (jsRemoveFirstSpan "[TAGS]" "[/TAGS]"
            (jsRemoveFirstSpan "[TITLE]" "[/TITLE]" rawText)) = ""
       then postPlaceholder
       else jsTrim (jsRemoveFirstSpan "[TAGS]" "[/TAGS]"
            (jsRemoveFirstSpan "[TITLE]" "[/TITLE]" rawText))) := by
  refine ⟨rfl, ?_⟩
  unfold generateBlogPostCore
  dsimp only
  rw [if_neg, if_pos hpost]
  intro hall
  simp only [Bool.and_eq_true, Option.isNone_iff_eq_none] at hall
  exact hwf ⟨hall.1.1, hall.1.2, hall.2⟩

/-- Witness for C6's amended reconstruction at a concrete raw text whose
stripped remainder is empty (the placeholder case). -/
theorem generateBlogPost_post_reconstruction_witness :
    (generateBlogPostCore "k" "[TITLE]T[/TITLE]").post = postPlaceholder := by
  have h := (generateBlogPost_post_reconstruction "k" "[TITLE]T[/TITLE]"
    (fun hall => absurd hall.1 (by decide)) (by decide)).2
  exact h.trans (by decide)

/-- C4: the Citation Resolver handles source titles in original order; with a
non-empty expected-domain set it binds the url of the first unconsumed chunk
whose label matches and consumes it; with no domain match it falls back to
the unconsumed chunk at the source's own position; with neither, the source
stays plain text.  The concrete conjunct runs the spec's example: the outlet
`연합뉴스` binds the chunk labelled with `yna.co.kr` and the consumed chunk is
not reused for the next source. -/
theorem citationResolver_matching (table : String → List String)
    (pool : List (CitationChunk × Bool)) (t : String) (idx : Nat) (o : String)
    (ho : extractOutlet t = some o) (hd : table o ≠ []) :
    (∀ i c, findDomainMatch (table o) pool = some (i, c) →
      resolveOne table pool t idx = (CitationBinding.linked t c.url, consumeAt pool i)) ∧
    (findDomainMatch (table o) pool = none →
      ∀ c, pool[idx]? = some (c, false) →
        resolveOne table pool t idx = (CitationBinding.linked t c.url, consumeAt pool idx)) ∧
    (findDomainMatch (table o) pool = none →
      (pool[idx]? = none ∨ ∃ c, pool[idx]? = some (c, true)) →
        resolveOne table pool t idx = (CitationBinding.plain t, pool)) ∧
    (∀ rest pool2, resolveSources table (t :: rest) idx pool2 =
      (resolveOne table pool2 t idx).1 ::
        resolveSources table rest (idx + 1) (resolveOne table pool2 t idx).2) ∧
    citationResolver demoTable ["Headline - 연합뉴스", "Other - 연합뉴스"]
        [⟨"https://u0", "yna.co.kr news"⟩] =
      [CitationBinding.linked "Headline - 연합뉴스" "https://u0",
       CitationBinding.plain "Other - 연합뉴스"] := by
  have hde : (table o).isEmpty = false := by
    cases h : table o with
    | nil => exact absurd h hd
    | cons a as => rfl
  refine ⟨?_, ?_, ?_, fun rest pool2 => rfl, by decide⟩
  · intro i c hfind
    unfold resolveOne
    rw [ho]
    dsimp only
    rw [hde]
    simp [hfind]
  · intro hfind c hc
    unfold resolveOne
    rw [ho]
    dsimp only
    rw [hde]
    simp [hfind, hc]
  · intro hfind hnone
    unfold resolveOne
    rw [ho]
    dsimp only
    rw [hde]
    rcases hnone with hn | ⟨c, hc⟩
    · simp [hfind, hn]
    · simp [hfind, hc]

/-- Witness for C4: the spec's worked example, with the domain-matched chunk
bound and consumed. -/
theorem citationResolver_matching_witness :
    resolveOne demoTable [(⟨"https://u0", "yna.co.kr news"⟩, false)] "Headline - 연합뉴스" 0 =
      (CitationBinding.linked "Headline - 연합뉴스" "https://u0",
       [(⟨"https://u0", "yna.co.kr news"⟩, true)]) := by
  have h := (citationResolver_matching demoTable
      [(⟨"https://u0", "yna.co.kr news"⟩, false)] "Headline - 연합뉴스" 0 "연합뉴스"
      (by decide) (by decide)).1 0 ⟨"https://u0", "yna.co.kr news"⟩ (by decide)
  exact h.trans (by decide)

end AutoBlog
